import Mathlib

/-!
Verification of the tool-response broker: size estimation, preview
synthesis, the time-evicted buffer store, the response gate, the
singleton session broker, and the bundled Python MCP client.

The broker core (Estimator, Synthesizer, Buffer Store, Gate, Broker) is
exercised by the repository's tests but its implementation is not part
of the checked-in sources; those components are modelled from the spec,
as marked on each definition.  The MCP client is embedded directly from
`src/lsp_mcp_client.py`.
-/

set_option autoImplicit false

/-- Modelled from the spec: the JSON-like values exchanged with the
backend (arbitrary acyclic JSON data, §3/§4.1). -/
inductive JsonValue : Type where
  | null : JsonValue
  | bool : Bool → JsonValue
  | num : Int → JsonValue
  | str : String → JsonValue
  | arr : List JsonValue → JsonValue
  | obj : List (String × JsonValue) → JsonValue
deriving Repr

mutual

/-- Modelled from the spec: the canonical serialized form of a value
(compact JSON text, §4.1 "the value's canonical serialized form"). -/
def serialize : JsonValue → String
  | .null => "null"
  | .bool true => "true"
  | .bool false => "false"
  | .num n => toString n
  | .str s => "\"" ++ s ++ "\""
  | .arr xs => "[" ++ serializeItems xs ++ "]"
  | .obj kvs => "\x7b" ++ serializeFields kvs ++ "\x7d"

/-- Comma-separated serialization of array elements. -/
def serializeItems : List JsonValue → String
  | [] => ""
  | [x] => serialize x
  | x :: y :: rest => serialize x ++ "," ++ serializeItems (y :: rest)

/-- Comma-separated serialization of object fields. -/
def serializeFields : List (String × JsonValue) → String
  | [] => ""
  | [kv] => "\"" ++ kv.1 ++ "\":" ++ serialize kv.2
  | kv :: kv2 :: rest =>
      "\"" ++ kv.1 ++ "\":" ++ serialize kv.2 ++ "," ++ serializeFields (kv2 :: rest)

end

mutual

/-- Modelled from the spec: byte size of the canonical serialized form,
computed structurally (the Estimator does not materialise the text). -/
def serializedSize : JsonValue → Nat
  | .null => 4
  | .bool true => 4
  | .bool false => 5
  | .num n => (toString n).length
  | .str s => s.length + 2
  | .arr xs => 2 + sizeItems xs
  | .obj kvs => 2 + sizeFields kvs

/-- Serialized size of array elements, commas included. -/
def sizeItems : List JsonValue → Nat
  | [] => 0
  | [x] => serializedSize x
  | x :: y :: rest => serializedSize x + 1 + sizeItems (y :: rest)

/-- Serialized size of object fields, commas included. -/
def sizeFields : List (String × JsonValue) → Nat
  | [] => 0
  | [kv] => kv.1.length + 3 + serializedSize kv.2
  | kv :: kv2 :: rest => kv.1.length + 3 + serializedSize kv.2 + 1 + sizeFields (kv2 :: rest)

end

mutual

/-- Modelled from the spec: deepest nesting level of containers
(§4.1 `maxDepth`); scalars have depth 0. -/
def maxDepth : JsonValue → Nat
  | .arr xs => 1 + depthItems xs
  | .obj kvs => 1 + depthFields kvs
  | _ => 0

/-- Deepest nesting level among array elements. -/
def depthItems : List JsonValue → Nat
  | [] => 0
  | x :: rest => max (maxDepth x) (depthItems rest)

/-- Deepest nesting level among object field values. -/
def depthFields : List (String × JsonValue) → Nat
  | [] => 0
  | kv :: rest => max (maxDepth kv.2) (depthFields rest)

end

mutual

/-- Modelled from the spec: number of container elements, counted
transitively (§4.1 `itemCount`); scalars contribute none. -/
def itemCount : JsonValue → Nat
  | .arr xs => countItems xs
  | .obj kvs => countFields kvs
  | _ => 0

/-- Transitive element count of an array's elements. -/
def countItems : List JsonValue → Nat
  | [] => 0
  | x :: rest => 1 + itemCount x + countItems rest

/-- Transitive element count of an object's fields. -/
def countFields : List (String × JsonValue) → Nat
  | [] => 0
  | kv :: rest => 1 + itemCount kv.2 + countFields rest

end

/-- Result record of the Size Estimator (§4.1). -/
structure EstimateResult where
  sizeBytes : Nat
  tokenEstimate : Nat
  maxDepth : Nat
  itemCount : Nat
deriving Repr, DecidableEq

/-- Modelled from the spec: the Size Estimator, `estimate(value)`
(§4.1).  Pure and total by construction; `tokenEstimate` is the
documented bytes/4 heuristic. -/
def estimate (v : JsonValue) : EstimateResult :=
  { sizeBytes := serializedSize v
    tokenEstimate := serializedSize v / 4
    maxDepth := maxDepth v
    itemCount := itemCount v }

/-! ## Configuration surface (§6) -/

/-- Modelled from the spec: default response budget in tokens (§4.4/§6). -/
def budgetTokensDefault : Nat := 2500

/-- Modelled from the spec: buffer time-to-live in milliseconds (§3, TTL = 60 s). -/
def bufferTTL : Nat := 60000

/-- Modelled from the spec: default preview depth limit (§6; empirical default). -/
def defaultDepthLimit : Nat := 3

/-- Modelled from the spec: minimum preview depth limit (§4.4, "a minimum depth of 1"). -/
def minDepthLimit : Nat := 1

/-- Modelled from the spec: list-preview item count (§6, default 10). -/
def listPreviewCount : Nat := 10

/-! ## Preview Synthesizer (§4.2) -/

/-- Tool-kind tag dispatching the Preview Synthesizer, mirroring the four
PreviewShape forms of §3. -/
inductive ToolKind : Type where
  | listKind : ToolKind
  | treeKind : ToolKind
  | groupedKind : ToolKind
  | distributionKind : ToolKind
deriving Repr, DecidableEq

/-- First field of an object with the given key, if any. -/
def lookupField (k : String) : List (String × JsonValue) → Option JsonValue
  | [] => none
  | kv :: rest => if kv.1 = k then some kv.2 else lookupField k rest

/-- The top-level items of a payload (document-symbol and search results
arrive as a top-level array; anything else is treated as one item). -/
def topLevel : JsonValue → List JsonValue
  | .arr xs => xs
  | v => [v]

/-- Number of direct children of a tree node (its `children` array). -/
def numChildren (v : JsonValue) : Nat :=
  match v with
  | .obj kvs =>
      match lookupField "children" kvs with
      | some (.arr cs) => cs.length
      | _ => 0
  | _ => 0

/-- Modelled from the spec: the marker that replaces a subtree below the
depth limit, carrying its omitted child count (§4.2). -/
def markerFor (v : JsonValue) : JsonValue :=
  .obj [("truncated", .bool true), ("omittedChildren", .num (Int.ofNat (numChildren v)))]

mutual

/-- Modelled from the spec: depth-limited truncation of a tree node —
nesting happens through `children` fields, and subtrees below the limit
become markers (§4.2). -/
def truncNode : Nat → JsonValue → JsonValue
  | d, .obj kvs => .obj (truncFields d kvs)
  | _, v => v

/-- Truncation over a node's fields: only the `children` field nests. -/
def truncFields : Nat → List (String × JsonValue) → List (String × JsonValue)
  | _, [] => []
  | d, kv :: rest =>
      (kv.1, if kv.1 = "children" then truncChildren d kv.2 else kv.2) :: truncFields d rest

/-- Truncation of a `children` array: at the limit every child subtree is
replaced by its marker, above it truncation recurses one level deeper. -/
def truncChildren : Nat → JsonValue → JsonValue
  | 0, .arr cs => .arr (cs.map markerFor)
  | d + 1, .arr cs => .arr (truncItems d cs)
  | _, v => v

/-- Truncation mapped over child nodes. -/
def truncItems : Nat → List JsonValue → List JsonValue
  | _, [] => []
  | d, x :: rest => truncNode d x :: truncItems d rest

end

/-- Category (completion kind) of an item, for grouped previews. -/
def categoryOf (v : JsonValue) : String :=
  match v with
  | .obj kvs =>
      match lookupField "kind" kvs with
      | some (.str s) => s
      | _ => "unknown"
  | _ => "unknown"

/-- Per-category counts for the grouped PreviewShape (§3). -/
def categoryCounts (xs : List JsonValue) : List (String × JsonValue) :=
  ((xs.map categoryOf).dedup).map fun c =>
    (c, .obj [("count", .num (Int.ofNat (xs.countP (fun v => categoryOf v == c))))])

/-- Modelled from the spec: first/middle/last sampling of distribution
groups; fewer than 3 groups degenerates to all groups (§4.2). -/
def sampleGroups (xs : List JsonValue) : List JsonValue :=
  if xs.length < 3 then xs
  else [xs.headD .null, xs.getD (xs.length / 2) .null, xs.getLast?.getD .null]

/-- Modelled from the spec: advisory refinement suggestions chosen by
threshold rules on `itemCount` / `maxDepth` (§4.2). -/
def suggestionsFor (e : EstimateResult) : List String :=
  (if 50 < e.itemCount then ["Narrow the query or filter results to reduce the item count"]
   else []) ++
  (if 3 < e.maxDepth then ["Request a specific symbol by name instead of the whole tree"]
   else [])

/-- Modelled from the spec: the Preview Synthesizer,
`synthesize(value, toolKind, depthLimit) -> PreviewShape` (§4.2),
dispatching on the tool kind to the four forms of §3. -/
def synthesize (v : JsonValue) (k : ToolKind) (depthLimit : Nat) : JsonValue :=
  match k with
  | .listKind => .arr ((topLevel v).take listPreviewCount)
  | .treeKind =>
      .obj
        [("items", .arr (((topLevel v).take listPreviewCount).map (truncNode depthLimit))),
         ("totalItems", .num (Int.ofNat (topLevel v).length))]
  | .groupedKind =>
      .obj
        [("totalCompletions", .num (Int.ofNat (topLevel v).length)),
         ("byCategory", .obj (categoryCounts (topLevel v)))]
  | .distributionKind => .obj [("distribution", .arr (sampleGroups (topLevel v)))]

/-! ## Buffer Store (§4.3) -/

/-- Modelled from the spec: a BufferEntry record (§3). -/
structure BufferEntry where
  bufferId : Nat
  payload : JsonValue
  createdAt : Nat
  sizeBytes : Nat
  tokenEstimate : Nat

/-- Modelled from the spec: the Buffer Store's mutable state — the entry
map plus the fresh-id source (ids are generated fresh, never recycled). -/
structure BufferStore where
  entries : List BufferEntry
  nextId : Nat

/-- The buffer-layer error taxonomy (§7): unknown or expired id. -/
inductive BufferError : Type where
  | NotFound : BufferError
deriving Repr, DecidableEq

namespace Buffer

/-- The store at process start: no entries, no issued ids. -/
def emptyStore : BufferStore := { entries := [], nextId := 0 }

/-- Modelled from the spec: `put(payload) -> bufferId` (§4.3) — always
succeeds, generates a fresh unique id, records size and `createdAt = now`;
the entry is immediately visible to `get`/`stats`. -/
def put (st : BufferStore) (now : Nat) (payload : JsonValue) : Nat × BufferStore :=
  let e := estimate payload
  (st.nextId,
   { entries :=
       { bufferId := st.nextId, payload := payload, createdAt := now,
         sizeBytes := e.sizeBytes, tokenEstimate := e.tokenEstimate } :: st.entries
     nextId := st.nextId + 1 })

/-- An entry is expired once `now - createdAt > TTL` (§3). -/
def isExpired (now : Nat) (e : BufferEntry) : Bool :=
  bufferTTL < now - e.createdAt

/-- Modelled from the spec: `get(bufferId)` (§4.3) — the payload, or
`NotFound` for an unknown or expired id.  Retrieval neither extends the
TTL nor removes the entry, so the store comes back unchanged. -/
def get (st : BufferStore) (now : Nat) (id : Nat) :
    Except BufferError JsonValue × BufferStore :=
  match st.entries.find? (fun e => e.bufferId == id) with
  | none => (.error .NotFound, st)
  | some e => if isExpired now e then (.error .NotFound, st) else (.ok e.payload, st)

/-- The currently live (non-expired) entries. -/
def liveEntries (st : BufferStore) (now : Nat) : List BufferEntry :=
  st.entries.filter (fun e => ! isExpired now e)

/-- Modelled from the spec: background eviction — purges entries older
than the TTL; the only removal mechanism besides process exit (§4.3). -/
def evict (st : BufferStore) (now : Nat) : BufferStore :=
  { st with entries := liveEntries st now }

/-- Every buffer id the store has ever issued lives on some entry. -/
def issuedIds (st : BufferStore) : List Nat :=
  st.entries.map (·.bufferId)

end Buffer

/-- Modelled from the spec: BufferStats, derived over live entries only (§3). -/
structure BufferStats where
  activeBuffers : Nat
  totalSize : Nat
  oldestBuffer : Option Nat
deriving Repr, DecidableEq

namespace Buffer

/-- Modelled from the spec: `stats()` (§4.3), computed over currently
live (non-expired) entries only. -/
def stats (st : BufferStore) (now : Nat) : BufferStats :=
  let live := liveEntries st now
  { activeBuffers := live.length
    totalSize := (live.map (·.sizeBytes)).sum
    oldestBuffer :=
      match (live.map (·.createdAt)).min? with
      | none => none
      | some t => some (now - t) }

end Buffer

/-! ## Response Gate (§4.4) -/

/-- Metadata block of a BufferedResponseEnvelope (§3). -/
structure EnvelopeMetadata where
  totalTokens : Nat
  totalBytes : Nat
  itemCount : Nat
  maxDepth : Nat
  wouldExceedLimit : Bool
  truncatedAtDepth : Option Nat
deriving Repr, DecidableEq

/-- Modelled from the spec: the BufferedResponseEnvelope returned in
place of an over-budget result (§3). -/
structure Envelope where
  metadata : EnvelopeMetadata
  preview : JsonValue
  suggestions : List String
  bufferId : Nat

/-- What the gate hands back: the raw result verbatim, or an envelope. -/
inductive GateResult : Type where
  | direct : JsonValue → GateResult
  | buffered : Envelope → GateResult

/-- Whether the preview synthesized at depth `d` fits the budget. -/
def fitsAt (v : JsonValue) (k : ToolKind) (budget : Nat) (d : Nat) : Bool :=
  (estimate (synthesize v k d)).tokenEstimate ≤ budget

/-- Modelled from the spec: the gate's depth-limit policy (§4.4) — starting
from the given depth, the limit is reduced until the preview fits the
budget or the minimum depth of 1 is reached. -/
def chooseDepthFrom (v : JsonValue) (k : ToolKind) (budget : Nat) : Nat → Nat
  | 0 => minDepthLimit
  | d + 1 =>
      if d + 1 ≤ minDepthLimit then minDepthLimit
      else if fitsAt v k budget (d + 1) then d + 1
      else chooseDepthFrom v k budget d

/-- The depth limit the gate actually applies, starting from the default. -/
def chooseDepth (v : JsonValue) (k : ToolKind) (budget : Nat) : Nat :=
  chooseDepthFrom v k budget defaultDepthLimit

/-- Modelled from the spec: the Response Gate,
`gate(rawResult, toolKind, budgetTokens)` (§4.4) — under budget the raw
result passes through verbatim with the store untouched; over budget the
result is buffered and an envelope with a depth-limited preview returns. -/
def gate (raw : JsonValue) (k : ToolKind) (budget : Nat) (st : BufferStore) (now : Nat) :
    GateResult × BufferStore :=
  let e := estimate raw
  if e.tokenEstimate ≤ budget then (.direct raw, st)
  else
    let pr := Buffer.put st now raw
    let d := chooseDepth raw k budget
    (.buffered
      { metadata :=
          { totalTokens := e.tokenEstimate
            totalBytes := e.sizeBytes
            itemCount := e.itemCount
            maxDepth := e.maxDepth
            wouldExceedLimit := true
            truncatedAtDepth := match k with | .treeKind => some d | _ => none }
        preview := synthesize raw k d
        suggestions := suggestionsFor e
        bufferId := pr.1 },
     pr.2)

/-- The preview carried by a gate result, if it is an envelope. -/
def previewOf : GateResult → Option JsonValue
  | .direct _ => none
  | .buffered env => some env.preview

/-! ## Session Broker (§4.5) -/

/-- Modelled from the spec: the process-wide Session record (§3). -/
structure Session where
  sessionId : String
  initializedAt : Nat
deriving Repr, DecidableEq

/-- Modelled from the spec: the Broker's two-state machine,
`Uninitialized → Initialized` (§4.5); holding at most one Session record
is thereby structural. -/
inductive BrokerState : Type where
  | uninitialized : BrokerState
  | initialized : Session → BrokerState
deriving Repr, DecidableEq

/-- How many Session records a state holds (0 or 1 by construction). -/
def sessionCount : BrokerState → Nat
  | .uninitialized => 0
  | .initialized _ => 1

/-- Modelled from the spec: one `initialize` call (§4.5).  The first call
creates the Session from its fresh id; any later call is idempotent and
answers with the existing `sessionId`. -/
def initCall : BrokerState → String → Nat → String × BrokerState
  | .uninitialized, freshId, now => (freshId, .initialized ⟨freshId, now⟩)
  | .initialized s, _, _ => (s.sessionId, .initialized s)

/-- Result of the side-effect-free introspection query (§4.5/§6). -/
structure Introspection where
  initialized : Bool
  sessionId : Option String
deriving Repr, DecidableEq

/-- Modelled from the spec: session introspection, `{initialized, sessionId}`
reflecting current state without side effects (§4.5). -/
def introspect : BrokerState → Introspection
  | .uninitialized => { initialized := false, sessionId := none }
  | .initialized s => { initialized := true, sessionId := some s.sessionId }

/-- A linearized run of several `initialize` calls (§5: initialize calls
are linearized), each with its own fresh id and arrival time; returns
every caller's answer and the final state. -/
def runInits : BrokerState → List (String × Nat) → List String × BrokerState
  | st, [] => ([], st)
  | st, c :: rest =>
      let r := initCall st c.1 c.2
      let rr := runInits r.2 rest
      (r.1 :: rr.1, rr.2)

/-- Number of Session records created along a linearized run. -/
def creationCount : BrokerState → List (String × Nat) → Nat
  | _, [] => 0
  | st, c :: rest =>
      let st' := (initCall st c.1 c.2).2
      (sessionCount st' - sessionCount st) + creationCount st' rest

/-- Every state passed through along a linearized run. -/
def traceStates : BrokerState → List (String × Nat) → List BrokerState
  | st, [] => [st]
  | st, c :: rest => st :: traceStates (initCall st c.1 c.2).2 rest

/-- Outcome of a brokered tool invocation: the backend's answer, or a
session-layer rejection (which the Broker never produces, §4.5). -/
inductive ToolOutcome : Type where
  | ok : JsonValue → ToolOutcome
  | sessionError : String → ToolOutcome

/-- Modelled from the spec: tool-invocation handling (§4.5).  The claimed
session id is checked against the live Session, but a missing, stale or
unknown id falls back to the same singleton backend connection rather
than producing a caller-visible error. -/
def handleToolCall (backend : String → JsonValue → JsonValue) (st : BrokerState)
    (claimed : Option String) (tool : String) (args : JsonValue) : ToolOutcome :=
  match st with
  | .initialized s =>
      match claimed with
      | some c =>
          if c = s.sessionId then .ok (backend tool args)
          else .ok (backend tool args)
      | none => .ok (backend tool args)
  | .uninitialized => .ok (backend tool args)

/-! ## The bundled MCP client, embedded from `src/lsp_mcp_client.py` -/

/-- Errors the client raises (`ValueError`s in the Python source). -/
inductive ClientError : Type where
  | noSessionId : ClientError
  | notInitialized : ClientError
deriving Repr, DecidableEq

/-- Python truthiness of an `Optional[str]`: `None` and `""` are falsy. -/
def pyTruthy : Option String → Bool
  | none => false
  | some s => ! s.isEmpty

/-- The `MCPClient` dataclass state (`port`, `session_id`). -/
structure MCPClient where
  port : Nat
  session_id : Option String
deriving Repr, DecidableEq

/-- `MCPClient.initialize` (src/lsp_mcp_client.py:38-71): stores the
server's `mcp-session-id` response header into `session_id` and raises
`ValueError` when the header is missing (or empty, by truthiness). -/
def clientInit (header : Option String) (c : MCPClient) : Except ClientError MCPClient :=
  let c' : MCPClient := { c with session_id := header }
  if pyTruthy c'.session_id then .ok c' else .error .noSessionId

/-- `MCPClient.__post_init__` (src/lsp_mcp_client.py:33-36): construction
without a (truthy) `session_id` invokes `initialize`. -/
def postInit (c : MCPClient) (header : Option String) : Except ClientError MCPClient :=
  if pyTruthy c.session_id then .ok c else clientInit header c

/-- Constructing `MCPClient(port, session_id)` against a server whose
initialize response carries `header`. -/
def mkClient (port : Nat) (sid : Option String) (header : Option String) :
    Except ClientError MCPClient :=
  postInit { port := port, session_id := sid } header

/-- The observable part of an HTTP request `call_tool` sends. -/
structure SentRequest where
  sessionHeader : String
  method : String
  toolName : String
  arguments : JsonValue

/-- `MCPClient.call_tool` (src/lsp_mcp_client.py:73-104): raises
`ValueError` without a truthy `session_id`; otherwise posts a
`tools/call` request whose `mcp-session-id` header is `session_id`. -/
def MCPClient.call_tool (c : MCPClient) (tool : String) (args : JsonValue) :
    Except ClientError SentRequest :=
  if pyTruthy c.session_id then
    .ok { sessionHeader := c.session_id.getD "", method := "tools/call",
          toolName := tool, arguments := args }
  else .error .notInitialized

/-- A deeply nested single-chain array: `deepArr n` is `n` arrays each
wrapping one element, ending in `null` — a payload whose list-kind
preview cannot be shrunk, since its single top-level item is kept whole. -/
def deepArr : Nat → JsonValue
  | 0 => .null
  | n + 1 => .arr [deepArr n]

/-- The buffer id a gate result carries, if it is an envelope. -/
def bufferIdOf : GateResult → Option Nat
  | .direct _ => none
  | .buffered env => some env.bufferId

/-- A store holding one entry created at time 0, for exercising expiry. -/
def expiredStore : BufferStore :=
  { entries := [{ bufferId := 0, payload := .null, createdAt := 0,
                  sizeBytes := 4, tokenEstimate := 1 }],
    nextId := 1 }

/-- Field access on an object value (none on non-objects). -/
def fieldOf (k : String) : JsonValue → Option JsonValue
  | .obj kvs => lookupField k kvs
  | _ => none

/-- The concrete 50,000-item symbol tree of the scenario. -/
def bigSymbolTree : JsonValue := .arr (List.replicate 50000 (.str "sym"))


/-! ## Estimator facts -/

mutual

/-- The structural size agrees with the canonical serialization. -/
theorem serializedSize_eq : (v : JsonValue) → serializedSize v = (serialize v).length
  | .null => by decide
  | .bool b => by cases b <;> decide
  | .num _ => rfl
  | .str s => by
      have h1 : ("\"" : String).length = 1 := rfl
      simp [serializedSize, serialize, String.length_append, h1]
      omega
  | .arr xs => by
      have h1 : ("[" : String).length = 1 := rfl
      have h2 : ("]" : String).length = 1 := rfl
      have h := sizeItems_eq xs
      simp [serializedSize, serialize, String.length_append, h1, h2, h]
      omega
  | .obj kvs => by
      have h1 : ("\x7b" : String).length = 1 := rfl
      have h2 : ("\x7d" : String).length = 1 := rfl
      have h := sizeFields_eq kvs
      simp [serializedSize, serialize, String.length_append, h1, h2, h]
      omega

/-- Element sizes agree with the serialized element text. -/
theorem sizeItems_eq : (xs : List JsonValue) → sizeItems xs = (serializeItems xs).length
  | [] => by decide
  | [x] => by
      have h := serializedSize_eq x
      simp [sizeItems, serializeItems, h]
  | x :: y :: rest => by
      have h1 := serializedSize_eq x
      have h2 := sizeItems_eq (y :: rest)
      have h3 : ("," : String).length = 1 := rfl
      simp [sizeItems, serializeItems, String.length_append, h1, h2, h3]

/-- Field sizes agree with the serialized field text. -/
theorem sizeFields_eq : (kvs : List (String × JsonValue)) →
    sizeFields kvs = (serializeFields kvs).length
  | [] => by decide
  | [kv] => by
      have h := serializedSize_eq kv.2
      have h1 : ("\"" : String).length = 1 := rfl
      have h2 : ("\":" : String).length = 2 := rfl
      simp [sizeFields, serializeFields, String.length_append, h, h1, h2]
      omega
  | kv :: kv2 :: rest => by
      have h := serializedSize_eq kv.2
      have hr := sizeFields_eq (kv2 :: rest)
      have h1 : ("\"" : String).length = 1 := rfl
      have h2 : ("\":" : String).length = 2 := rfl
      have h3 : ("," : String).length = 1 := rfl
      simp [sizeFields, serializeFields, String.length_append, h, hr, h1, h2, h3]
      omega

end

/-- C6: for every (acyclic) JSON-like value, `estimate` is a pure total
Lean function — defined for all `JsonValue`s, never failing — whose
`sizeBytes` is the length of the value's canonical serialized form and
whose `tokenEstimate` is `sizeBytes / 4`. -/
theorem estimator_canonical (v : JsonValue) :
    (estimate v).sizeBytes = (serialize v).length ∧
    (estimate v).tokenEstimate = (estimate v).sizeBytes / 4 := by
  refine ⟨?_, rfl⟩
  simpa [estimate] using serializedSize_eq v

/-- C9: preview synthesis is a deterministic, side-effect-free projection
of the full payload — the preview a gate run produces depends only on the
payload, tool kind and budget, never on the store state or the clock, so
two runs on the same full payload yield the same preview. -/
theorem preview_deterministic (p : JsonValue) (k : ToolKind) (budget : Nat)
    (st1 : BufferStore) (now1 : Nat) (st2 : BufferStore) (now2 : Nat) :
    previewOf (gate p k budget st1 now1).1 = previewOf (gate p k budget st2 now2).1 := by
  by_cases h : (estimate p).tokenEstimate ≤ budget <;> simp [gate, h, previewOf]

/-- C7: a result whose token estimate is under budget passes through the
gate unchanged and leaves the Buffer Store identical — no buffer id is
minted (the fresh-id source is untouched) and `stats` (hence
`activeBuffers`) is unaffected. -/
theorem gate_under_budget_frame (raw : JsonValue) (k : ToolKind) (budget : Nat)
    (st : BufferStore) (now : Nat)
    (h : (estimate raw).tokenEstimate ≤ budget) :
    gate raw k budget st now = (.direct raw, st) ∧
    Buffer.stats (gate raw k budget st now).2 now = Buffer.stats st now ∧
    (gate raw k budget st now).2.nextId = st.nextId := by
  have hg : gate raw k budget st now = (.direct raw, st) := by simp [gate, h]
  exact ⟨hg, by rw [hg], by rw [hg]⟩

set_option maxRecDepth 8192 in
/-- C7 witness: a small (200-byte-scale) hover result with the default
2500-token budget passes through the gate with the store untouched. -/
theorem gate_under_budget_frame_witness :
    gate (.obj [("contents", .str "The quick brown fox jumps over the lazy dog, a short hover text about a symbol definition with its type signature and docs attached for display.")])
        .listKind 2500 Buffer.emptyStore 0 =
      (.direct (.obj [("contents", .str "The quick brown fox jumps over the lazy dog, a short hover text about a symbol definition with its type signature and docs attached for display.")]),
       Buffer.emptyStore) ∧
    Buffer.stats (gate (.obj [("contents", .str "The quick brown fox jumps over the lazy dog, a short hover text about a symbol definition with its type signature and docs attached for display.")])
        .listKind 2500 Buffer.emptyStore 0).2 0 =
      Buffer.stats Buffer.emptyStore 0 ∧
    (gate (.obj [("contents", .str "The quick brown fox jumps over the lazy dog, a short hover text about a symbol definition with its type signature and docs attached for display.")])
        .listKind 2500 Buffer.emptyStore 0).2.nextId = Buffer.emptyStore.nextId :=
  gate_under_budget_frame _ .listKind 2500 Buffer.emptyStore 0 (by decide)

/-- C4: a tool invocation whose claimed session id is absent or does not
match the live Session's id produces exactly the result a matching-id
call produces for the same tool arguments, and never a session error. -/
theorem session_fallback (backend : String → JsonValue → JsonValue) (s : Session)
    (claimed : Option String) (tool : String) (args : JsonValue) :
    handleToolCall backend (.initialized s) claimed tool args =
      handleToolCall backend (.initialized s) (some s.sessionId) tool args ∧
    handleToolCall backend (.initialized s) claimed tool args = .ok (backend tool args) := by
  rcases claimed with _ | c
  · simp [handleToolCall]
  · by_cases h : c = s.sessionId <;> simp [handleToolCall, h]

/-- The gate's depth policy either reaches a depth whose preview fits the
budget or bottoms out at the minimum depth. -/
theorem chooseDepthFrom_fits_or_min (v : JsonValue) (k : ToolKind) (b : Nat) :
    ∀ d0, fitsAt v k b (chooseDepthFrom v k b d0) = true ∨
      chooseDepthFrom v k b d0 = minDepthLimit := by
  intro d0
  induction d0 with
  | zero => exact Or.inr rfl
  | succ d ih =>
      by_cases h1 : d + 1 ≤ minDepthLimit
      · right; simp [chooseDepthFrom, h1]
      · by_cases h2 : fitsAt v k b (d + 1) = true
        · left; simp [chooseDepthFrom, h1, h2]
        · have h2' : fitsAt v k b (d + 1) = false := by
            simpa using h2
          simpa [chooseDepthFrom, h1, h2'] using ih

/-- Serialized size of the nested chain: 4 bytes for `null` plus one
bracket pair per level. -/
theorem serializedSize_deepArr (n : Nat) : serializedSize (deepArr n) = 4 + 2 * n := by
  induction n with
  | zero => rfl
  | succ n ih =>
      simp [deepArr, serializedSize, sizeItems, ih]
      ring

/-- C1 (counterexample to the claim as stated): `deepArr 10000` estimates
to 5001 tokens, over the 2500-token budget, so the gate buffers it — but
the list-kind preview keeps its (single) top-level item whole, so the
envelope's preview is the payload itself and the preview's own estimated
size exceeds the budget; no depth limit reduction can change that. -/
theorem gate_budget_invariant_cex :
    2500 < (estimate (deepArr 10000)).tokenEstimate ∧
    previewOf (gate (deepArr 10000) .listKind 2500 Buffer.emptyStore 0).1 =
      some (deepArr 10000) := by
  have hsize : serializedSize (deepArr 10000) = 20004 := by
    rw [serializedSize_deepArr]
  have htok : (estimate (deepArr 10000)).tokenEstimate = 5001 := by
    simp [estimate, hsize]
  have hnot : ¬ (estimate (deepArr 10000)).tokenEstimate ≤ 2500 := by
    rw [htok]; norm_num
  have hun : deepArr 10000 = .arr [deepArr 9999] := by
    rw [show (10000 : Nat) = 9999 + 1 from by norm_num]
    rfl
  have hsyn : synthesize (deepArr 10000) .listKind
      (chooseDepth (deepArr 10000) .listKind 2500) = deepArr 10000 := by
    conv_lhs => rw [hun]
    rw [hun]
    simp [synthesize, topLevel]
    decide
  refine ⟨by rw [htok]; norm_num, ?_⟩
  simp [gate, hnot, previewOf, hsyn]

/-- C1 (amended): the gate returns the payload verbatim iff its token
estimate is within budget; otherwise it returns an envelope whose
preview is synthesized at the chosen depth limit and either the
preview's own estimated size is within budget or the depth policy has
bottomed out at the minimum depth of 1 — at which point the preview is
returned even if still over budget. -/
theorem gate_budget_invariant_amended (raw : JsonValue) (k : ToolKind) (budget : Nat)
    (st : BufferStore) (now : Nat) :
    ((gate raw k budget st now).1 = .direct raw ↔ (estimate raw).tokenEstimate ≤ budget) ∧
    (¬ (estimate raw).tokenEstimate ≤ budget →
      ∃ env, (gate raw k budget st now).1 = .buffered env ∧
        env.preview = synthesize raw k (chooseDepth raw k budget) ∧
        ((estimate env.preview).tokenEstimate ≤ budget ∨
          chooseDepth raw k budget = minDepthLimit)) := by
  by_cases h : (estimate raw).tokenEstimate ≤ budget
  · exact ⟨by simp [gate, h], fun hc => absurd h hc⟩
  · refine ⟨by simp [gate, h], fun _ => ?_⟩
    have hg : (gate raw k budget st now).1 = .buffered
        { metadata :=
            { totalTokens := (estimate raw).tokenEstimate
              totalBytes := (estimate raw).sizeBytes
              itemCount := (estimate raw).itemCount
              maxDepth := (estimate raw).maxDepth
              wouldExceedLimit := true
              truncatedAtDepth :=
                match k with | .treeKind => some (chooseDepth raw k budget) | _ => none }
          preview := synthesize raw k (chooseDepth raw k budget)
          suggestions := suggestionsFor (estimate raw)
          bufferId := st.nextId } := by
      simp [gate, h, Buffer.put]
    refine ⟨_, hg, rfl, ?_⟩
    rcases chooseDepthFrom_fits_or_min raw k budget defaultDepthLimit with hf | hm
    · left
      have hle : (estimate (synthesize raw k
          (chooseDepthFrom raw k budget defaultDepthLimit))).tokenEstimate ≤ budget := by
        simpa [fitsAt] using hf
      simpa [chooseDepth] using hle
    · right
      simpa [chooseDepth] using hm

/-- C1 witness: at the concrete over-budget payload `deepArr 10000` the
amended theorem produces the envelope with its synthesized preview and
the fit-or-minimum-depth disjunction. -/
theorem gate_budget_invariant_amended_witness :
    ∃ env, (gate (deepArr 10000) .listKind 2500 Buffer.emptyStore 0).1 = .buffered env ∧
      env.preview = synthesize (deepArr 10000) .listKind
        (chooseDepth (deepArr 10000) .listKind 2500) ∧
      ((estimate env.preview).tokenEstimate ≤ 2500 ∨
        chooseDepth (deepArr 10000) .listKind 2500 = minDepthLimit) :=
  (gate_budget_invariant_amended (deepArr 10000) .listKind 2500 Buffer.emptyStore 0).2
    (by
      have htok : (estimate (deepArr 10000)).tokenEstimate = 5001 := by
        simp [estimate, serializedSize_deepArr]
      omega)

/-- C2: every payload the gate buffers is retrievable by the envelope's
buffer id before TTL expiry, and the retrieved value is structurally
equal to the payload: `get (put P) == P`. -/
theorem buffered_roundtrip (raw : JsonValue) (k : ToolKind) (budget : Nat)
    (st : BufferStore) (now now2 bid : Nat)
    (hbid : bufferIdOf (gate raw k budget st now).1 = some bid)
    (hlive : now2 - now ≤ bufferTTL) :
    (Buffer.get (gate raw k budget st now).2 now2 bid).1 = .ok raw := by
  by_cases h : (estimate raw).tokenEstimate ≤ budget
  · simp [gate, h, bufferIdOf] at hbid
  · have hb : bid = st.nextId := by
      have hx := hbid
      simp [gate, h, bufferIdOf, Buffer.put] at hx
      omega
    subst hb
    have hexp : Buffer.isExpired now2
        { bufferId := st.nextId, payload := raw, createdAt := now,
          sizeBytes := (estimate raw).sizeBytes,
          tokenEstimate := (estimate raw).tokenEstimate } = false := by
      simp [Buffer.isExpired]
      omega
    simp [gate, h, Buffer.put, Buffer.get, hexp]

/-- C2 witness: a payload over a zero budget is buffered under id 0 and
retrieved intact immediately afterwards. -/
theorem buffered_roundtrip_witness :
    0 - 0 ≤ bufferTTL ∧
    (Buffer.get (gate (.str "hello world") .listKind 0 Buffer.emptyStore 0).2 0 0).1 =
      .ok (.str "hello world") :=
  ⟨by decide,
   buffered_roundtrip (.str "hello world") .listKind 0 Buffer.emptyStore 0 0 0
     (by decide) (by decide)⟩

/-- C5: `get` fails with `NotFound` for every id never issued by `put`
and for every id whose entry is older than the TTL; retrieval leaves the
store (hence every TTL) untouched, so a second retrieval of an expired
id fails identically to an unknown one. -/
theorem get_notfound (st : BufferStore) (now id : Nat)
    (h : id ∉ Buffer.issuedIds st ∨
         ∀ e ∈ st.entries, e.bufferId = id → bufferTTL < now - e.createdAt) :
    (Buffer.get st now id).1 = .error .NotFound ∧
    (Buffer.get st now id).2 = st ∧
    (Buffer.get (Buffer.get st now id).2 now id).1 = .error .NotFound := by
  have hmain : (Buffer.get st now id).1 = .error .NotFound := by
    rcases hf : st.entries.find? (fun e => e.bufferId == id) with _ | e
    · simp [Buffer.get, hf]
    · have hmem : e ∈ st.entries := List.mem_of_find?_eq_some hf
      have hpe := List.find?_some hf
      have hbe : e.bufferId = id := by simpa using hpe
      rcases h with hni | hexp
      · refine absurd ?_ hni
        simp [Buffer.issuedIds, List.mem_map]
        exact ⟨e, hmem, hbe⟩
      · have hlt := hexp e hmem hbe
        have hexpb : Buffer.isExpired now e = true := by
          simp [Buffer.isExpired]
          exact hlt
        simp [Buffer.get, hf, hexpb]
  have hst : (Buffer.get st now id).2 = st := by
    rcases hf : st.entries.find? (fun e => e.bufferId == id) with _ | e
    · simp [Buffer.get, hf]
    · simp only [Buffer.get, hf]
      split <;> rfl
  refine ⟨hmain, hst, ?_⟩
  rw [hst]
  exact hmain

/-- C5 witness: 70 seconds after a `put` at time 0 the issued id 0 is
expired and `get` fails with `NotFound`, twice identically, leaving the
store unchanged. -/
theorem get_notfound_witness :
    (Buffer.get expiredStore 70000 0).1 = .error .NotFound ∧
    (Buffer.get expiredStore 70000 0).2 = expiredStore ∧
    (Buffer.get (Buffer.get expiredStore 70000 0).2 70000 0).1 = .error .NotFound :=
  get_notfound expiredStore 70000 0 (Or.inr (by decide))

/-- After the Session exists, further initialize calls all answer the
existing `sessionId` and never change the state. -/
theorem runInits_initialized (s : Session) (cs : List (String × Nat)) :
    runInits (.initialized s) cs = (List.replicate cs.length s.sessionId, .initialized s) := by
  induction cs with
  | nil => rfl
  | cons c rest ih => simp [runInits, initCall, ih, List.replicate_succ]

/-- After the Session exists, no further Session record is ever created. -/
theorem creationCount_initialized (s : Session) (cs : List (String × Nat)) :
    creationCount (.initialized s) cs = 0 := by
  induction cs with
  | nil => rfl
  | cons c rest ih => simp [creationCount, initCall, sessionCount, ih]

/-- C3: a linearized run of N concurrent initialize calls creates exactly
one Session record; the first call wins, the session id never changes for
the rest of the process lifetime (any further initialize run leaves the
state fixed), every caller is answered with the same id, introspection
reports it, and every state along the run holds at most one Session. -/
theorem singleton_session (f : String) (t : Nat) (rest : List (String × Nat)) :
    creationCount .uninitialized ((f, t) :: rest) = 1 ∧
    (runInits .uninitialized ((f, t) :: rest)).2 = .initialized ⟨f, t⟩ ∧
    (runInits .uninitialized ((f, t) :: rest)).1 = List.replicate (rest.length + 1) f ∧
    introspect (runInits .uninitialized ((f, t) :: rest)).2 =
      { initialized := true, sessionId := some f } ∧
    (∀ cs2, (runInits (runInits .uninitialized ((f, t) :: rest)).2 cs2).2 =
      (runInits .uninitialized ((f, t) :: rest)).2) ∧
    (∀ st ∈ traceStates .uninitialized ((f, t) :: rest), sessionCount st ≤ 1) := by
  have hrun : runInits .uninitialized ((f, t) :: rest) =
      (f :: List.replicate rest.length f, .initialized ⟨f, t⟩) := by
    simp [runInits, initCall, runInits_initialized]
  refine ⟨?_, ?_, ?_, ?_, ?_, ?_⟩
  · simp [creationCount, initCall, sessionCount, creationCount_initialized]
  · rw [hrun]
  · rw [hrun, List.replicate_succ]
  · rw [hrun]
    rfl
  · intro cs2
    rw [hrun]
    simp [runInits_initialized]
  · intro st _
    cases st <;> simp [sessionCount]

/-- C3 witness: three concurrent initialize calls — one Session created,
all three callers and introspection observe the first caller's id. -/
theorem singleton_session_witness :
    creationCount .uninitialized [("sess-1", 5), ("sess-2", 6), ("sess-3", 7)] = 1 ∧
    (runInits .uninitialized [("sess-1", 5), ("sess-2", 6), ("sess-3", 7)]).2 =
      .initialized ⟨"sess-1", 5⟩ ∧
    (runInits .uninitialized [("sess-1", 5), ("sess-2", 6), ("sess-3", 7)]).1 =
      List.replicate ([("sess-2", 6), ("sess-3", 7)].length + 1) "sess-1" ∧
    introspect (runInits .uninitialized [("sess-1", 5), ("sess-2", 6), ("sess-3", 7)]).2 =
      { initialized := true, sessionId := some "sess-1" } ∧
    (∀ cs2, (runInits (runInits .uninitialized
        [("sess-1", 5), ("sess-2", 6), ("sess-3", 7)]).2 cs2).2 =
      (runInits .uninitialized [("sess-1", 5), ("sess-2", 6), ("sess-3", 7)]).2) ∧
    (∀ st ∈ traceStates .uninitialized [("sess-1", 5), ("sess-2", 6), ("sess-3", 7)],
      sessionCount st ≤ 1) :=
  singleton_session "sess-1" 5 [("sess-2", 6), ("sess-3", 7)]

/-- C8: gating an over-budget symbol tree with 50,000 items yields an
envelope whose metadata reports `itemCount = 50000` and
`wouldExceedLimit = true`, whose `truncatedAtDepth` equals the depth
limit actually applied to the preview, whose preview holds at most 10
top-level items (with subtrees below the limit replaced by markers
carrying their omitted child counts), while `retrieve_buffer` returns
all items unmodified within the TTL and `stats` immediately afterwards
reports at least one active buffer. -/
theorem tree_scenario (p : JsonValue) (budget : Nat) (st : BufferStore) (now now2 : Nat)
    (hcount : (estimate p).itemCount = 50000)
    (hover : budget < (estimate p).tokenEstimate)
    (hlive : now2 - now ≤ bufferTTL) :
    ∃ env, (gate p .treeKind budget st now).1 = .buffered env ∧
      env.metadata.itemCount = 50000 ∧
      env.metadata.wouldExceedLimit = true ∧
      env.metadata.truncatedAtDepth = some (chooseDepth p .treeKind budget) ∧
      env.preview = synthesize p .treeKind (chooseDepth p .treeKind budget) ∧
      (∀ items, fieldOf "items" env.preview = some (.arr items) →
        items.length ≤ 10) ∧
      (∀ cs, truncChildren 0 (.arr cs) = .arr (cs.map markerFor)) ∧
      (Buffer.get (gate p .treeKind budget st now).2 now2 env.bufferId).1 = .ok p ∧
      1 ≤ (Buffer.stats (gate p .treeKind budget st now).2 now).activeBuffers := by
  have h : ¬ (estimate p).tokenEstimate ≤ budget := by omega
  have hg : (gate p .treeKind budget st now).1 = .buffered
      { metadata :=
          { totalTokens := (estimate p).tokenEstimate
            totalBytes := (estimate p).sizeBytes
            itemCount := (estimate p).itemCount
            maxDepth := (estimate p).maxDepth
            wouldExceedLimit := true
            truncatedAtDepth := some (chooseDepth p .treeKind budget) }
        preview := synthesize p .treeKind (chooseDepth p .treeKind budget)
        suggestions := suggestionsFor (estimate p)
        bufferId := st.nextId } := by
    simp [gate, h, Buffer.put]
  refine ⟨_, hg, hcount, rfl, rfl, rfl, ?_, fun cs => rfl, ?_, ?_⟩
  · intro items hit
    simp only [synthesize, fieldOf, lookupField, if_pos rfl] at hit
    have hitems : items = ((topLevel p).take listPreviewCount).map
        (truncNode (chooseDepth p .treeKind budget)) := by
      cases hit
      rfl
    subst hitems
    rw [List.length_map]
    exact le_trans (List.length_take_le _ _) (by norm_num [listPreviewCount])
  · have hexp : Buffer.isExpired now2
        { bufferId := st.nextId, payload := p, createdAt := now,
          sizeBytes := (estimate p).sizeBytes,
          tokenEstimate := (estimate p).tokenEstimate } = false := by
      simp [Buffer.isExpired]
      omega
    simp [gate, h, Buffer.put, Buffer.get, hexp]
  · have hexp0 : Buffer.isExpired now
        { bufferId := st.nextId, payload := p, createdAt := now,
          sizeBytes := (estimate p).sizeBytes,
          tokenEstimate := (estimate p).tokenEstimate } = false := by
      simp [Buffer.isExpired]
    simp [gate, h, Buffer.put, Buffer.stats, Buffer.liveEntries, hexp0]

/-- Item count of a replicated flat symbol list. -/
theorem countItems_replicate_sym (n : Nat) :
    countItems (List.replicate n (.str "sym")) = n := by
  induction n with
  | zero => rfl
  | succ n ih =>
      rw [List.replicate_succ]
      simp only [countItems, itemCount]
      omega

/-- Serialized element size of a replicated flat symbol list. -/
theorem sizeItems_replicate_sym (n : Nat) :
    sizeItems (List.replicate (n + 1) (.str "sym")) = 6 * n + 5 := by
  induction n with
  | zero => rfl
  | succ n ih =>
      rw [List.replicate_succ, List.replicate_succ]
      simp only [sizeItems]
      rw [← List.replicate_succ, ih]
      have h5 : serializedSize (.str "sym") = 5 := by decide
      rw [h5]
      ring

/-- Unfolding equation for `itemCount` on arrays, stated at a variable so
rewriting at large concrete lists stays cheap. -/
theorem itemCount_arr (xs : List JsonValue) : itemCount (.arr xs) = countItems xs := by
  simp only [itemCount]

/-- Unfolding equation for `serializedSize` on arrays. -/
theorem serializedSize_arr (xs : List JsonValue) :
    serializedSize (.arr xs) = 2 + sizeItems xs := by
  simp only [serializedSize]

/-- Projection equation for the Estimator's token field, stated at a
variable so instantiating at large payloads stays cheap. -/
theorem estimate_tokenEstimate (v : JsonValue) :
    (estimate v).tokenEstimate = serializedSize v / 4 := rfl

/-- Projection equation for the Estimator's item-count field. -/
theorem estimate_itemCount (v : JsonValue) : (estimate v).itemCount = itemCount v := rfl

/-- C8 witness: the concrete 50,000-item tree is over the 2500-token
budget; the instantiated scenario conclusions hold at time 0. -/
theorem tree_scenario_witness :
    ∃ env, (gate bigSymbolTree .treeKind 2500 Buffer.emptyStore 0).1 = .buffered env ∧
      env.metadata.itemCount = 50000 ∧
      env.metadata.wouldExceedLimit = true ∧
      env.metadata.truncatedAtDepth = some (chooseDepth bigSymbolTree .treeKind 2500) ∧
      env.preview = synthesize bigSymbolTree .treeKind
        (chooseDepth bigSymbolTree .treeKind 2500) ∧
      (∀ items, fieldOf "items" env.preview = some (.arr items) →
        items.length ≤ 10) ∧
      (∀ cs, truncChildren 0 (.arr cs) = .arr (cs.map markerFor)) ∧
      (Buffer.get (gate bigSymbolTree .treeKind 2500 Buffer.emptyStore 0).2 0
        env.bufferId).1 = .ok bigSymbolTree ∧
      1 ≤ (Buffer.stats (gate bigSymbolTree .treeKind 2500 Buffer.emptyStore 0).2 0).activeBuffers :=
  tree_scenario bigSymbolTree 2500 Buffer.emptyStore 0 0
    (by
      rw [estimate_itemCount,
        show bigSymbolTree = .arr (List.replicate 50000 (.str "sym")) from rfl,
        itemCount_arr]
      exact countItems_replicate_sym 50000)
    (by
      have hs : serializedSize bigSymbolTree = 300001 := by
        rw [show bigSymbolTree = .arr (List.replicate 50000 (.str "sym")) from rfl,
          serializedSize_arr,
          show (50000 : Nat) = 49999 + 1 from by norm_num,
          sizeItems_replicate_sym]
      rw [estimate_tokenEstimate, hs]
      norm_num)
    (by decide)

/-- C10 (counterexample to the claim as stated): a client whose
`session_id` is the empty string — not `None` — still takes the
`ValueError` branch of `call_tool` (Python truthiness), so "otherwise
[when `session_id` is not None] sends the request" fails. -/
theorem client_session_header_cex :
    MCPClient.call_tool { port := 9527, session_id := some "" } "get_hover" (.obj []) =
      .error .notInitialized ∧
    ({ port := 9527, session_id := some "" } : MCPClient).session_id ≠ none := by
  refine ⟨rfl, ?_⟩
  simp

/-- C10 (amended): the bundled MCPClient never issues a session-less tool
invocation: construction without a (truthy) session id invokes
`initialize`, which errors when the server returns no — or an empty —
`mcp-session-id` header and records the header otherwise; `call_tool`
raises `ValueError` when `session_id` is `None` or empty, and otherwise
sends the `tools/call` request with the `mcp-session-id` header set to
`session_id`; every request actually sent carries a non-empty header. -/
theorem client_session_discipline (p : Nat) (s tool : String) (args : JsonValue)
    (hs : s ≠ "") :
    mkClient p none none = .error .noSessionId ∧
    mkClient p none (some "") = .error .noSessionId ∧
    mkClient p none (some s) = .ok { port := p, session_id := some s } ∧
    MCPClient.call_tool { port := p, session_id := none } tool args =
      .error .notInitialized ∧
    MCPClient.call_tool { port := p, session_id := some "" } tool args =
      .error .notInitialized ∧
    MCPClient.call_tool { port := p, session_id := some s } tool args =
      .ok { sessionHeader := s, method := "tools/call",
            toolName := tool, arguments := args } ∧
    (∀ c req, MCPClient.call_tool c tool args = .ok req → req.sessionHeader ≠ "") := by
  have hempty : s.isEmpty = false := by
    cases hie : s.isEmpty
    · rfl
    · exact absurd ((String.isEmpty_iff s).mp hie) hs
  refine ⟨rfl, rfl, ?_, rfl, rfl, ?_, ?_⟩
  · simp [mkClient, postInit, clientInit, pyTruthy, hempty]
  · simp [MCPClient.call_tool, pyTruthy, hempty]
  · intro c req h
    rcases hc : c.session_id with _ | s'
    · simp [MCPClient.call_tool, pyTruthy, hc] at h
    · by_cases hie : s'.isEmpty = true
      · simp [MCPClient.call_tool, pyTruthy, hc, hie] at h
      · have hie' : s'.isEmpty = false := by simpa using hie
        simp [MCPClient.call_tool, pyTruthy, hc, hie'] at h
        intro habs
        rw [← h] at habs
        simp at habs
        subst habs
        have hT : ("" : String).isEmpty = true := rfl
        rw [hT] at hie'
        exact Bool.noConfusion hie'

/-- C10 witness: construction and `call_tool` behaviour at concrete
inputs — port 9527, session id "abc123", tool `get_hover`. -/
theorem client_session_discipline_witness :
    mkClient 9527 none none = .error .noSessionId ∧
    mkClient 9527 none (some "") = .error .noSessionId ∧
    mkClient 9527 none (some "abc123") = .ok { port := 9527, session_id := some "abc123" } ∧
    MCPClient.call_tool { port := 9527, session_id := none } "get_hover" (.obj []) =
      .error .notInitialized ∧
    MCPClient.call_tool { port := 9527, session_id := some "" } "get_hover" (.obj []) =
      .error .notInitialized ∧
    MCPClient.call_tool { port := 9527, session_id := some "abc123" } "get_hover" (.obj []) =
      .ok { sessionHeader := "abc123", method := "tools/call",
            toolName := "get_hover", arguments := .obj [] } ∧
    (∀ c req, MCPClient.call_tool c "get_hover" (.obj []) = .ok req →
      req.sessionHeader ≠ "") :=
  client_session_discipline 9527 "abc123" "get_hover" (.obj []) (by decide)
